import Mathlib

/-!
Shallow embedding of the Edu-Board Flask application (src/app.py, src/models.py).

The persistent database state (SQLAlchemy models `User`, `Board`, `List`,
`Card` and the `board_collaborators` association table) is modelled as lists
of records plus autoincrement counters for the primary keys.  Each Flask
route handler that mutates state becomes a pure function from the state (and
the request parameters, with the authenticated session's user id passed as
`actorId`) to a response value paired with the successor state.

External collaborators are treated as parameters: `werkzeug`'s
`generate_password_hash` / `check_password_hash` are abstract arguments
(`hashFn` / `checkFn`), and the socketio broadcasts are side-effect free so
they are dropped from the state.  ORM relationship navigation
(`board.owner`, `card.list`, `new_list.board`, `board.collaborators`) is
modelled by explicit primary-key lookup / membership in the association
rows; a navigation that would dereference `None` in Python (an unhandled
`AttributeError`, impossible under the schema's foreign-key integrity) is
modelled by the `fault` response.
-/

namespace EduBoard

/-- The `User` model of src/app.py: `password` holds the stored credential
(the hash produced at registration). `date_created` is never consulted by
any handler and is omitted. -/
structure User where
  id : Nat
  username : String
  password : String
deriving Repr, DecidableEq

/-- The `Board` model: `user_id` is the owning user's id. -/
structure Board where
  id : Nat
  name : String
  user_id : Nat
deriving Repr, DecidableEq

/-- The `List` model of src/app.py (named `BList` here because `List` is
Lean's builtin list type): a named column belonging to one board. -/
structure BList where
  id : Nat
  name : String
  board_id : Nat
deriving Repr, DecidableEq

/-- The `Card` model: title, free-text description, client-controlled
integer position, and the owning list's id. -/
structure Card where
  id : Nat
  title : String
  description : String
  position : Int
  list_id : Nat
deriving Repr, DecidableEq

/-- The whole persistent state: the four tables, the
`board_collaborators` association rows as `(board_id, user_id)` pairs, and
the autoincrement counter of each primary key. -/
structure AppState where
  users : List User
  boards : List Board
  lists : List BList
  cards : List Card
  collabs : List (Nat × Nat)
  nextUserId : Nat
  nextBoardId : Nat
  nextListId : Nat
  nextCardId : Nat
deriving Repr, DecidableEq

/-- The empty database (`db.create_all()` on a fresh file). -/
def initState : AppState :=
  { users := [], boards := [], lists := [], cards := [], collabs := []
    nextUserId := 1, nextBoardId := 1, nextListId := 1, nextCardId := 1 }

/-- `User.query.get(uid)` / the `board.owner` backref: primary-key lookup. -/
def findUserById (us : List User) (uid : Nat) : Option User :=
  us.find? (fun u => u.id == uid)

/-- `User.query.filter_by(username=...).first()`. -/
def findUserByName (us : List User) (uname : String) : Option User :=
  us.find? (fun u => u.username == uname)

/-- `Board.query.get_or_404(bid)` (the `some` case; `none` is the 404). -/
def findBoard (bs : List Board) (bid : Nat) : Option Board :=
  bs.find? (fun b => b.id == bid)

/-- `List.query.get_or_404(lid)`. -/
def findList (ls : List BList) (lid : Nat) : Option BList :=
  ls.find? (fun l => l.id == lid)

/-- `Card.query.get_or_404(cid)`. -/
def findCard (cs : List Card) (cid : Nat) : Option Card :=
  cs.find? (fun c => c.id == cid)

/-- Response of a page-rendering route: `http404` from `get_or_404`,
`redirectFlash msg` for the flash-message-plus-redirect pattern (both the
success and the refusal branches of src/app.py use it, distinguished only
by the flashed text, which is carried verbatim), and `fault` for an
unhandled `AttributeError` on a dangling foreign key. -/
inductive PageResult where
  | http404
  | redirectFlash (msg : String)
  | fault
deriving Repr, DecidableEq

/-- Response of the JSON endpoint `/move_card`: `errorJson status e` is
`jsonify({"error": e}), status` and `messageJson status m` is
`jsonify({"message": m}), status`. -/
inductive MoveResult where
  | http404
  | errorJson (status : Nat) (error : String)
  | messageJson (status : Nat) (message : String)
  | fault
deriving Repr, DecidableEq

/-- Outcome of `login`: `success uid` models `login_user(user)` plus the
redirect to the dashboard, `failure msg` models `flash(msg)` plus
re-rendering the login page. -/
inductive LoginResult where
  | success (userId : Nat)
  | failure (flashMsg : String)
deriving Repr, DecidableEq

/-- `register` (src/app.py lines 95-112), POST branch.  `hashFn` stands for
`werkzeug.security.generate_password_hash`. -/
def register (hashFn : String → String) (s : AppState) (uname pwd : String) :
    PageResult × AppState :=
  match findUserByName s.users uname with
  | some _ => (.redirectFlash "Username already exists!", s)
  | none =>
    (.redirectFlash "Registration successful! Please login.",
     { s with users := s.users ++ [⟨s.nextUserId, uname, hashFn pwd⟩],
              nextUserId := s.nextUserId + 1 })

/-- `login` (src/app.py lines 115-127), POST branch.  `checkFn` stands for
`werkzeug.security.check_password_hash` (first argument the stored hash,
second the submitted password).  No persistent state is changed. -/
def login (checkFn : String → String → Bool) (s : AppState)
    (uname pwd : String) : LoginResult :=
  match findUserByName s.users uname with
  | some user =>
    if checkFn user.password pwd then .success user.id
    else .failure "Invalid credentials!"
  | none => .failure "Invalid credentials!"

/-- `create_board` (src/app.py lines 147-157): unconditionally inserts a
board owned by the authenticated actor. -/
def create_board (s : AppState) (actorId : Nat) (name : String) :
    PageResult × AppState :=
  (.redirectFlash "✅ Board created successfully!",
   { s with boards := s.boards ++ [⟨s.nextBoardId, name, actorId⟩],
            nextBoardId := s.nextBoardId + 1 })

/-- `update_board` (src/app.py lines 160-171): 404 if the board is absent,
refusal flash if `board.owner.id != current_user.id`, otherwise renames. -/
def update_board (s : AppState) (actorId bid : Nat) (newName : String) :
    PageResult × AppState :=
  match findBoard s.boards bid with
  | none => (.http404, s)
  | some board =>
    match findUserById s.users board.user_id with
    | none => (.fault, s)
    | some owner =>
      if owner.id ≠ actorId then (.redirectFlash "⚠️ Unauthorized action.", s)
      else
        (.redirectFlash "✅ Board renamed successfully!",
         { s with boards := s.boards.map (fun b =>
             if b.id == bid then { b with name := newName } else b) })

/-- `delete_board` (src/app.py lines 174-185): same ownership check as
`update_board`; on success `db.session.delete(board)` cascades to the
board's lists (`cascade="all, delete"`), to those lists' cards, and to the
`board_collaborators` rows (`ondelete="CASCADE"`). -/
def delete_board (s : AppState) (actorId bid : Nat) :
    PageResult × AppState :=
  match findBoard s.boards bid with
  | none => (.http404, s)
  | some board =>
    match findUserById s.users board.user_id with
    | none => (.fault, s)
    | some owner =>
      if owner.id ≠ actorId then (.redirectFlash "⚠️ Unauthorized action.", s)
      else
        (.redirectFlash "🗑️ Board deleted successfully!",
         { s with boards := s.boards.filter (fun b => b.id != bid),
                  lists := s.lists.filter (fun l => l.board_id != bid),
                  cards := s.cards.filter (fun c =>
                    !(s.lists.any (fun l => l.board_id == bid && c.list_id == l.id))),
                  collabs := s.collabs.filter (fun r => r.1 != bid) })

/-- Python's `str.strip()` on the underlying character list: drop
whitespace from both ends. -/
def stripChars (l : List Char) : List Char :=
  (((l.dropWhile Char.isWhitespace).reverse).dropWhile Char.isWhitespace).reverse

/-- `request.form['username'].strip()` of src/app.py line 207. -/
def pyStrip (s : String) : String := ⟨stripChars s.data⟩

/-- `add_collaborator` (src/app.py lines 199-220): owner-only; the target is
resolved from the stripped form username; adding is skipped with a warning
when the target equals `board.owner` or is already in
`board.collaborators` (membership in the association rows). -/
def add_collaborator (s : AppState) (actorId bid : Nat) (username : String) :
    PageResult × AppState :=
  match findBoard s.boards bid with
  | none => (.http404, s)
  | some board =>
    match findUserById s.users board.user_id with
    | none => (.fault, s)
    | some owner =>
      if owner.id ≠ actorId then
        (.redirectFlash "Only board owners can add collaborators.", s)
      else
        match findUserByName s.users (pyStrip username) with
        | none => (.redirectFlash "❌ User not found!", s)
        | some user =>
          if user = owner ∨ (board.id, user.id) ∈ s.collabs then
            (.redirectFlash "⚠️ User is already a collaborator or owner.", s)
          else
            (.redirectFlash ("✅ " ++ pyStrip username ++ " added as collaborator!"),
             { s with collabs := s.collabs ++ [(board.id, user.id)] })

/-- `add_list` (src/app.py lines 223-232): inserts a list under the given
board id with no existence or ownership check whatsoever; `_actorId` is the
authenticated session's user, which the handler never reads. -/
def add_list (s : AppState) (_actorId bid : Nat) (name : String) :
    PageResult × AppState :=
  (.redirectFlash "✅ List added successfully!",
   { s with lists := s.lists ++ [⟨s.nextListId, name, bid⟩],
            nextListId := s.nextListId + 1 })

/-- `update_list` (src/app.py lines 235-243): 404 if absent, otherwise
renames; no ownership check (`_actorId` unread). -/
def update_list (s : AppState) (_actorId lid : Nat) (newName : String) :
    PageResult × AppState :=
  match findList s.lists lid with
  | none => (.http404, s)
  | some _ =>
    (.redirectFlash "✅ List updated successfully!",
     { s with lists := s.lists.map (fun l =>
         if l.id == lid then { l with name := newName } else l) })

/-- `delete_list` (src/app.py lines 246-255): 404 if absent, otherwise
deletes the list and (cascade) its cards; no ownership check. -/
def delete_list (s : AppState) (_actorId lid : Nat) :
    PageResult × AppState :=
  match findList s.lists lid with
  | none => (.http404, s)
  | some _ =>
    (.redirectFlash "🗑️ List deleted successfully!",
     { s with lists := s.lists.filter (fun l => l.id != lid),
              cards := s.cards.filter (fun c => c.list_id != lid) })

/-- `add_card` (src/app.py lines 258-272): inserts a card under the given
list id (position defaults to 0 per the `Card` model); the broadcast's
board resolution is wrapped in try/except so the handler never faults. -/
def add_card (s : AppState) (_actorId lid : Nat) (title description : String) :
    PageResult × AppState :=
  (.redirectFlash "✅ Card added successfully!",
   { s with cards := s.cards ++ [⟨s.nextCardId, title, description, 0, lid⟩],
            nextCardId := s.nextCardId + 1 })

/-- `update_card` (src/app.py lines 275-284): 404 if absent, otherwise
overwrites title and description; no ownership check.  The broadcast then
reads `card.list.board_id` after the commit, so a dangling `list_id`
faults only after the mutation is persisted. -/
def update_card (s : AppState) (_actorId cid : Nat) (title description : String) :
    PageResult × AppState :=
  match findCard s.cards cid with
  | none => (.http404, s)
  | some card =>
    let s' := { s with cards := s.cards.map (fun c =>
      if c.id == cid then { c with title := title, description := description } else c) }
    match findList s.lists card.list_id with
    | none => (.fault, s')
    | some _ => (.redirectFlash "✅ Card updated successfully!", s')

/-- `delete_card` (src/app.py lines 287-296): 404 if absent; reads
`card.list.board_id` before the delete (faulting there on a dangling
`list_id`, before any mutation), then deletes the card; no ownership
check. -/
def delete_card (s : AppState) (_actorId cid : Nat) :
    PageResult × AppState :=
  match findCard s.cards cid with
  | none => (.http404, s)
  | some card =>
    match findList s.lists card.list_id with
    | none => (.fault, s)
    | some _ =>
      (.redirectFlash "🗑️ Card deleted successfully!",
       { s with cards := s.cards.filter (fun c => c.id != cid) })

/-- The two assignment statements of `move_card` (src/app.py lines
310-311), `card.list_id = new_list_id; card.position = new_position`, as a
per-row update keyed on the card's primary key. -/
def applyMove (cid lid : Nat) (new_position : Int) (c : Card) : Card :=
  if c.id == cid then { c with list_id := lid, position := new_position } else c

/-- `move_card` (src/app.py lines 299-320): 404 if card or destination list
is absent; 403 `{"error": "Unauthorized"}` unless the actor owns the
destination list's board or appears in its collaborator rows; on success
overwrites the card's `list_id` and `position` verbatim and returns 200. -/
def move_card (s : AppState) (actorId cid lid : Nat) (new_position : Int) :
    MoveResult × AppState :=
  match findCard s.cards cid with
  | none => (.http404, s)
  | some _ =>
    match findList s.lists lid with
    | none => (.http404, s)
    | some nl =>
      match findBoard s.boards nl.board_id with
      | none => (.fault, s)
      | some board =>
        match findUserById s.users board.user_id with
        | none => (.fault, s)
        | some owner =>
          if owner.id ≠ actorId ∧ (board.id, actorId) ∉ s.collabs then
            (.errorJson 403 "Unauthorized", s)
          else
            (.messageJson 200 "Card moved successfully",
             { s with cards := s.cards.map (applyMove cid lid new_position) })

/-! ### The transition system and the owner-not-collaborator invariant -/

/-- The invariant of claim C5: no board's owner appears in that board's
collaborator set (the association rows). -/
def OwnerNotCollab (s : AppState) : Prop :=
  ∀ b ∈ s.boards, (b.id, b.user_id) ∉ s.collabs

/-- One state-mutating request of the application: each constructor is one
route handler of src/app.py applied to arbitrary request parameters and an
arbitrary session actor (`login`, `logout` and the read-only views do not
touch the database and are omitted). -/
inductive Step : AppState → AppState → Prop where
  | ofRegister (hashFn : String → String) (s : AppState) (uname pwd : String) :
      Step s (register hashFn s uname pwd).2
  | ofCreateBoard (s : AppState) (actorId : Nat) (name : String) :
      Step s (create_board s actorId name).2
  | ofUpdateBoard (s : AppState) (actorId bid : Nat) (newName : String) :
      Step s (update_board s actorId bid newName).2
  | ofDeleteBoard (s : AppState) (actorId bid : Nat) :
      Step s (delete_board s actorId bid).2
  | ofAddCollaborator (s : AppState) (actorId bid : Nat) (username : String) :
      Step s (add_collaborator s actorId bid username).2
  | ofAddList (s : AppState) (actorId bid : Nat) (name : String) :
      Step s (add_list s actorId bid name).2
  | ofUpdateList (s : AppState) (actorId lid : Nat) (newName : String) :
      Step s (update_list s actorId lid newName).2
  | ofDeleteList (s : AppState) (actorId lid : Nat) :
      Step s (delete_list s actorId lid).2
  | ofAddCard (s : AppState) (actorId lid : Nat) (title description : String) :
      Step s (add_card s actorId lid title description).2
  | ofUpdateCard (s : AppState) (actorId cid : Nat) (title description : String) :
      Step s (update_card s actorId cid title description).2
  | ofDeleteCard (s : AppState) (actorId cid : Nat) :
      Step s (delete_card s actorId cid).2
  | ofMoveCard (s : AppState) (actorId cid lid : Nat) (p : Int) :
      Step s (move_card s actorId cid lid p).2

/-- States reachable from the empty database by any sequence of requests. -/
inductive Reachable : AppState → Prop where
  | init : Reachable initState
  | step {s s' : AppState} : Reachable s → Step s s' → Reachable s'

/-- The inductive strengthening of `OwnerNotCollab`: primary keys are
nodup and below their autoincrement counters (what the relational store
guarantees), and every collaborator row points below the board counter. -/
structure Inv (s : AppState) : Prop where
  userFresh : ∀ u ∈ s.users, u.id < s.nextUserId
  userNodup : (s.users.map User.id).Nodup
  boardFresh : ∀ b ∈ s.boards, b.id < s.nextBoardId
  boardNodup : (s.boards.map Board.id).Nodup
  collabFresh : ∀ r ∈ s.collabs, r.1 < s.nextBoardId
  ownerNotCollab : OwnerNotCollab s

/-! ### Witness fixtures: a small concrete database.
`wAlice` owns board 1 with list 3 containing card 5; `wBob` is a second
registered user with no rights on the board. -/

def wAlice : User := ⟨1, "alice", "hash-a"⟩

def wBob : User := ⟨2, "bob", "hash-b"⟩

def wBoard : Board := ⟨1, "Sprint 1", 1⟩

def wTodo : BList := ⟨3, "Todo", 1⟩

def wCard : Card := ⟨5, "Write spec", "", 0, 3⟩

def wState : AppState := ⟨[wAlice, wBob], [wBoard], [wTodo], [wCard], [], 3, 2, 4, 6⟩

/-! A concrete request trace from the empty database: register alice,
create her board, register bob, add bob as collaborator. -/

def wHash : String → String := fun p => "H" ++ p

def wReach1 : AppState := (register wHash initState "alice" "pa").2

def wReach2 : AppState := (create_board wReach1 1 "Sprint").2

def wReach3 : AppState := (register wHash wReach2 "bob" "pb").2

def wReach4 : AppState := (add_collaborator wReach3 1 1 "bob").2

/-! ### Generic helper lemmas -/

/-- `find?` over a `map` whose function preserves the predicate. -/
theorem find?_map_pred_preserved {α : Type} (g : α → α) (q : α → Bool)
    (hp : ∀ a, q (g a) = q a) (l : List α) :
    (l.map g).find? q = (l.find? q).map g := by
  induction l with
  | nil => rfl
  | cons a t ih =>
    by_cases h : q a
    · simp [h, hp, List.find?_cons_of_pos]
    · simp only [List.map_cons]
      rw [List.find?_cons_of_neg _ (by simp [hp, h]), List.find?_cons_of_neg _ h, ih]

/-- Mapping a pointwise-idempotent function twice is mapping it once. -/
theorem map_idem {α : Type} (g : α → α) (hg : ∀ a, g (g a) = g a) (l : List α) :
    (l.map g).map g = l.map g := by
  induction l with
  | nil => rfl
  | cons a t ih => simp only [List.map_cons, hg, ih]

/-- Appending an element whose key exceeds every existing key keeps keys nodup. -/
theorem nodup_append_fresh {α : Type} (f : α → Nat) (l : List α) (a : α)
    (h : (l.map f).Nodup) (hf : ∀ x ∈ l, f x < f a) :
    ((l ++ [a]).map f).Nodup := by
  rw [List.map_append, List.map_singleton]
  refine List.Nodup.append h (List.nodup_singleton _) ?_
  intro x hx hy
  simp only [List.mem_singleton] at hy
  subst hy
  rcases List.mem_map.1 hx with ⟨b, hb, hfb⟩
  exact Nat.ne_of_lt (hf b hb) hfb

/-! ### Claims -/

/-- Claim C1: for every authenticated user who is neither the owner nor a
collaborator of the destination list's board, `move_card` returns the
explicit JSON error response 403 `{"error": "Unauthorized"}` (not a
redirect), and the state — in particular the card's `list_id` and
`position` — is unchanged. -/
theorem move_card_unauthorized_rejected
    (s : AppState) (actorId cid lid : Nat) (p : Int)
    (card : Card) (nl : BList) (board : Board) (owner : User)
    (hc : findCard s.cards cid = some card)
    (hl : findList s.lists lid = some nl)
    (hb : findBoard s.boards nl.board_id = some board)
    (ho : findUserById s.users board.user_id = some owner)
    (hown : owner.id ≠ actorId)
    (hcol : (board.id, actorId) ∉ s.collabs) :
    move_card s actorId cid lid p = (.errorJson 403 "Unauthorized", s) := by
  simp only [move_card, hc, hl, hb, ho]
  rw [if_pos ⟨hown, hcol⟩]

/-- Witness for C1: `wBob` (id 2), neither owner nor collaborator of board 1,
tries to move card 5 into list 3 at position 2 and is rejected. -/
theorem move_card_unauthorized_rejected_witness :
    move_card wState 2 5 3 2 = (.errorJson 403 "Unauthorized", wState) :=
  move_card_unauthorized_rejected wState 2 5 3 2 wCard wTodo wBoard wAlice
    (by decide) (by decide) (by decide) (by decide) (by decide) (by decide)

/-- Claim C2: a non-owner (collaborator or not) can neither rename nor
delete a board — both requests answer with the "Unauthorized action" flash
plus redirect and leave the state (hence the board's name and existence)
unchanged — while the owner's rename and delete always succeed. -/
theorem board_rename_delete_owner_only
    (s : AppState) (actorId bid : Nat) (newName : String)
    (board : Board) (owner : User)
    (hb : findBoard s.boards bid = some board)
    (ho : findUserById s.users board.user_id = some owner) :
    (owner.id ≠ actorId →
       update_board s actorId bid newName
         = (.redirectFlash "⚠️ Unauthorized action.", s) ∧
       delete_board s actorId bid
         = (.redirectFlash "⚠️ Unauthorized action.", s)) ∧
    (owner.id = actorId →
       (update_board s actorId bid newName).1
         = .redirectFlash "✅ Board renamed successfully!" ∧
       (delete_board s actorId bid).1
         = .redirectFlash "🗑️ Board deleted successfully!") := by
  constructor
  · intro h
    refine ⟨?_, ?_⟩ <;> simp only [update_board, delete_board, hb, ho] <;>
      rw [if_pos h]
  · intro h
    refine ⟨?_, ?_⟩ <;> simp only [update_board, delete_board, hb, ho] <;>
      rw [if_neg (not_not_intro h)]

/-- Witness for C2: non-owner `wBob` fails to rename board 1; owner
`wAlice` renames it successfully. -/
theorem board_rename_delete_owner_only_witness :
    update_board wState 2 1 "X" = (.redirectFlash "⚠️ Unauthorized action.", wState) ∧
    (update_board wState 1 1 "X").1 = .redirectFlash "✅ Board renamed successfully!" :=
  ⟨((board_rename_delete_owner_only wState 2 1 "X" wBoard wAlice
      (by decide) (by decide)).1 (by decide)).1,
   ((board_rename_delete_owner_only wState 1 1 "X" wBoard wAlice
      (by decide) (by decide)).2 rfl).1⟩

/-- Claim C4: registering an already-taken username fails with the conflict
flash and leaves the state (hence the existing account's id and stored
hash, and the user table) unchanged; a non-conflicting registration stores
exactly `hashFn pwd` — so whenever the hash differs from the plaintext, the
plaintext is never stored. -/
theorem register_conflict_and_hash
    (hashFn : String → String) (s : AppState) (uname pwd : String) :
    (∀ u, findUserByName s.users uname = some u →
        register hashFn s uname pwd = (.redirectFlash "Username already exists!", s)) ∧
    (findUserByName s.users uname = none →
        (register hashFn s uname pwd).2.users
            = s.users ++ [⟨s.nextUserId, uname, hashFn pwd⟩] ∧
        (hashFn pwd ≠ pwd →
          ∀ u ∈ (register hashFn s uname pwd).2.users,
            u ∉ s.users → u.password ≠ pwd)) := by
  constructor
  · intro u hu
    simp only [register, hu]
  · intro hn
    constructor
    · simp only [register, hn]
    · intro hneq u hu hnotold
      simp only [register, hn, List.mem_append, List.mem_singleton] at hu
      rcases hu with h | h
      · exact absurd h hnotold
      · subst h
        simpa using hneq

/-- Witness for C4: re-registering "alice" on `wState` is a conflict no-op;
a fresh registration of "carol" stores the hash, not the plaintext. -/
theorem register_conflict_and_hash_witness :
    register (fun p => "H" ++ p) wState "alice" "pw"
      = (.redirectFlash "Username already exists!", wState) ∧
    (register (fun p => "H" ++ p) wState "carol" "pw").2.users
      = wState.users ++ [⟨3, "carol", "Hpw"⟩] :=
  ⟨(register_conflict_and_hash (fun p => "H" ++ p) wState "alice" "pw").1
      wAlice (by decide),
   ((register_conflict_and_hash (fun p => "H" ++ p) wState "carol" "pw").2
      (by decide)).1⟩

/-- Claim C8: the two causes of login failure — unknown username, and known
username with non-verifying password — produce the same user-visible
response, so they are indistinguishable from the response (two-run
noninterference over the failure branch). -/
theorem login_failure_noninterference
    (chk1 chk2 : String → String → Bool) (s1 s2 : AppState)
    (u1 p1 u2 p2 m1 m2 : String)
    (h1 : login chk1 s1 u1 p1 = .failure m1)
    (h2 : login chk2 s2 u2 p2 = .failure m2) :
    m1 = m2 := by
  have key : ∀ (chk : String → String → Bool) (s : AppState) (u p m : String),
      login chk s u p = .failure m → m = "Invalid credentials!" := by
    intro chk s u p m h
    unfold login at h
    cases hf : findUserByName s.users u with
    | none =>
      simp only [hf] at h
      exact (LoginResult.failure.inj h).symm
    | some user =>
      simp only [hf] at h
      by_cases hc : chk user.password p
      · rw [if_pos hc] at h
        cases h
      · rw [if_neg hc] at h
        exact (LoginResult.failure.inj h).symm
  rw [key chk1 s1 u1 p1 m1 h1, key chk2 s2 u2 p2 m2 h2]

/-- Witness for C8: a run with a nonexistent username and a run with an
existing username but wrong password yield equal responses. -/
theorem login_failure_noninterference_witness :
    ("Invalid credentials!" : String) = "Invalid credentials!" :=
  login_failure_noninterference (fun a b => a == b) (fun a b => a == b)
    initState wState "alice" "x" "alice" "wrong"
    "Invalid credentials!" "Invalid credentials!" (by decide) (by decide)

/-- Claim C9: `add_list` performs no ownership or collaboration check at
all: for every authenticated actor — owner, collaborator or stranger — and
every board id, it succeeds with the success flash (never a forbidden
outcome) and inserts the new list under exactly that board id. -/
theorem add_list_requires_no_authorization
    (s : AppState) (actorId bid : Nat) (name : String) :
    add_list s actorId bid name
      = (.redirectFlash "✅ List added successfully!",
         { s with lists := s.lists ++ [⟨s.nextListId, name, bid⟩],
                  nextListId := s.nextListId + 1 }) := rfl

/-! ### Facts about `applyMove` and successful `move_card` runs -/

/-- `applyMove` never changes the primary key. -/
theorem applyMove_id (cid lid : Nat) (p : Int) (c : Card) :
    (applyMove cid lid p c).id = c.id := by
  unfold applyMove
  by_cases h : c.id == cid <;> simp [h]

/-- `applyMove` is pointwise idempotent. -/
theorem applyMove_idem (cid lid : Nat) (p : Int) (c : Card) :
    applyMove cid lid p (applyMove cid lid p c) = applyMove cid lid p c := by
  unfold applyMove
  by_cases h : c.id == cid <;> simp [h]

/-- Inversion of a successful `move_card` run: every lookup succeeded, the
authorization test passed, and the successor state is the verbatim
per-card rewrite of the card table. -/
theorem move_card_success_inversion
    (s : AppState) (actorId cid lid : Nat) (p : Int) (m : String) (s' : AppState)
    (h : move_card s actorId cid lid p = (.messageJson 200 m, s')) :
    ∃ card nl board owner,
      findCard s.cards cid = some card ∧
      findList s.lists lid = some nl ∧
      findBoard s.boards nl.board_id = some board ∧
      findUserById s.users board.user_id = some owner ∧
      ¬(owner.id ≠ actorId ∧ (board.id, actorId) ∉ s.collabs) ∧
      m = "Card moved successfully" ∧
      s' = { s with cards := s.cards.map (applyMove cid lid p) } := by
  unfold move_card at h
  cases hfc : findCard s.cards cid with
  | none => simp [hfc] at h
  | some card =>
    simp only [hfc] at h
    cases hfl : findList s.lists lid with
    | none => simp [hfl] at h
    | some nl =>
      simp only [hfl] at h
      cases hfb : findBoard s.boards nl.board_id with
      | none => simp [hfb] at h
      | some board =>
        simp only [hfb] at h
        cases ho : findUserById s.users board.user_id with
        | none => simp [ho] at h
        | some owner =>
          simp only [ho] at h
          by_cases hauth : owner.id ≠ actorId ∧ (board.id, actorId) ∉ s.collabs
          · rw [if_pos hauth] at h
            simp at h
          · rw [if_neg hauth] at h
            obtain ⟨h1, h2⟩ := Prod.mk.inj h
            exact ⟨card, nl, board, owner, rfl, rfl, hfb, ho, hauth,
              (MoveResult.messageJson.inj h1).2.symm, h2.symm⟩

/-- Claim C7: a successful `move_card` sets the moved card's `list_id` to
the destination list and its `position` to exactly the supplied value
(verbatim, for any integer — collisions and out-of-range values included,
since `p` is unconstrained), leaves every other card untouched (no sibling
renumbering), and leaves the list, board, user and collaborator tables
unchanged. -/
theorem move_card_success_frame
    (s : AppState) (actorId cid lid : Nat) (p : Int) (m : String) (s' : AppState)
    (h : move_card s actorId cid lid p = (.messageJson 200 m, s')) :
    (∀ c ∈ s'.cards, c.id = cid → c.list_id = lid ∧ c.position = p) ∧
    (∃ c ∈ s'.cards, c.id = cid) ∧
    (∀ c ∈ s.cards, c.id ≠ cid → c ∈ s'.cards) ∧
    (∀ c ∈ s'.cards, c.id ≠ cid → c ∈ s.cards) ∧
    s'.lists = s.lists ∧ s'.boards = s.boards ∧
    s'.users = s.users ∧ s'.collabs = s.collabs := by
  obtain ⟨card, nl, board, owner, hfc, hfl, hfb, ho, hauth, hm, hs⟩ :=
    move_card_success_inversion s actorId cid lid p m s' h
  subst hs
  refine ⟨?_, ?_, ?_, ?_, rfl, rfl, rfl, rfl⟩
  · intro c hc hcid
    rcases List.mem_map.1 hc with ⟨a, _, rfl⟩
    unfold applyMove at hcid ⊢
    by_cases ha : a.id == cid
    · simp [ha]
    · simp only [if_neg ha] at hcid
      exact absurd (by simpa using hcid) (by simpa using ha)
  · refine ⟨applyMove cid lid p card,
      List.mem_map_of_mem _ (List.mem_of_find?_eq_some hfc), ?_⟩
    have hcid : card.id = cid := by simpa using List.find?_some hfc
    rw [applyMove_id, hcid]
  · intro c hc hcid
    have : applyMove cid lid p c = c := by
      unfold applyMove
      rw [if_neg (by simpa using hcid)]
    exact this ▸ List.mem_map_of_mem _ hc
  · intro c hc hcid
    rcases List.mem_map.1 hc with ⟨a, ha, rfl⟩
    by_cases h' : a.id == cid
    · have : (applyMove cid lid p a).id = cid := by
        rw [applyMove_id]
        simpa using h'
      exact absurd this hcid
    · have : applyMove cid lid p a = a := by
        unfold applyMove
        rw [if_neg h']
      rw [this]
      exact ha

/-- Witness for C7: owner `wAlice` moves card 5 to list 3 at position 7;
the card ends at position 7 and the other tables are unchanged. -/
theorem move_card_success_frame_witness :
    (∀ c ∈ (move_card wState 1 5 3 7).2.cards, c.id = 5 →
        c.list_id = 3 ∧ c.position = 7) ∧
    (move_card wState 1 5 3 7).2.lists = wState.lists :=
  ⟨(move_card_success_frame wState 1 5 3 7 "Card moved successfully"
      (move_card wState 1 5 3 7).2 (by decide)).1,
   (move_card_success_frame wState 1 5 3 7 "Card moved successfully"
      (move_card wState 1 5 3 7).2 (by decide)).2.2.2.2.1⟩

/-- Claim C6: `move_card` is idempotent — after a successful
`move_card(c, l, p)`, repeating the identical call succeeds again and
leaves the state exactly as after the first call. -/
theorem move_card_idempotent
    (s : AppState) (actorId cid lid : Nat) (p : Int) (m : String) (s1 : AppState)
    (h : move_card s actorId cid lid p = (.messageJson 200 m, s1)) :
    move_card s1 actorId cid lid p = (.messageJson 200 m, s1) := by
  obtain ⟨card, nl, board, owner, hfc, hfl, hfb, ho, hauth, hm, hs⟩ :=
    move_card_success_inversion s actorId cid lid p m s1 h
  subst hs hm
  have hfc2 : findCard (s.cards.map (applyMove cid lid p)) cid
      = some (applyMove cid lid p card) := by
    unfold findCard at hfc ⊢
    rw [find?_map_pred_preserved (applyMove cid lid p) (fun c => c.id == cid)
      (fun a => by simp [applyMove_id]) s.cards, hfc]
    rfl
  simp only [move_card, hfc2, hfl, hfb, ho]
  rw [if_neg hauth]
  rw [map_idem (applyMove cid lid p) (applyMove_idem cid lid p) s.cards]

/-- Witness for C6: after `wAlice` moves card 5 to list 3 at position 7,
repeating the identical request does not change the state further. -/
theorem move_card_idempotent_witness :
    move_card (move_card wState 1 5 3 7).2 1 5 3 7
      = (.messageJson 200 "Card moved successfully", (move_card wState 1 5 3 7).2) :=
  move_card_idempotent wState 1 5 3 7 "Card moved successfully"
    (move_card wState 1 5 3 7).2 (by decide)

/-- Claim C3: after the owner successfully deletes a board, every list that
belonged to it, every card of those lists, and every collaborator row of
the board are gone: looking any former list or card of the board up by its
primary key returns `none` (not-found), and no association row for the
board survives.  The `Nodup` hypotheses state primary-key uniqueness,
which the relational store enforces. -/
theorem delete_board_cascades
    (s : AppState) (actorId bid : Nat) (board : Board) (owner : User)
    (hb : findBoard s.boards bid = some board)
    (ho : findUserById s.users board.user_id = some owner)
    (hown : owner.id = actorId)
    (hnl : (s.lists.map BList.id).Nodup)
    (hnc : (s.cards.map Card.id).Nodup) :
    (delete_board s actorId bid).1 = .redirectFlash "🗑️ Board deleted successfully!" ∧
    findBoard (delete_board s actorId bid).2.boards bid = none ∧
    (∀ l ∈ s.lists, l.board_id = bid →
        findList (delete_board s actorId bid).2.lists l.id = none) ∧
    (∀ c ∈ s.cards, ∀ l ∈ s.lists, l.board_id = bid → c.list_id = l.id →
        findCard (delete_board s actorId bid).2.cards c.id = none) ∧
    (∀ r ∈ (delete_board s actorId bid).2.collabs, r.1 ≠ bid) := by
  have hred : delete_board s actorId bid
      = (.redirectFlash "🗑️ Board deleted successfully!",
         { s with boards := s.boards.filter (fun b => b.id != bid),
                  lists := s.lists.filter (fun l => l.board_id != bid),
                  cards := s.cards.filter (fun c =>
                    !(s.lists.any (fun l => l.board_id == bid && c.list_id == l.id))),
                  collabs := s.collabs.filter (fun r => r.1 != bid) }) := by
    simp only [delete_board, hb, ho]
    rw [if_neg (not_not_intro hown)]
  rw [hred]
  refine ⟨rfl, ?_, ?_, ?_, ?_⟩
  · unfold findBoard
    rw [List.find?_eq_none]
    intro b hbm
    have := (List.mem_filter.1 hbm).2
    simpa using this
  · intro l hl hlb
    unfold findList
    rw [List.find?_eq_none]
    intro x hx
    have hxm := List.mem_filter.1 hx
    intro hxe
    have hxl : x = l :=
      List.inj_on_of_nodup_map hnl hxm.1 hl (by simpa using hxe)
    subst hxl
    rw [hlb] at hxm
    simpa using hxm.2
  · intro c hc l hl hlb hcl
    unfold findCard
    rw [List.find?_eq_none]
    intro x hx
    have hxm := List.mem_filter.1 hx
    intro hxe
    have hxc : x = c :=
      List.inj_on_of_nodup_map hnc hxm.1 hc (by simpa using hxe)
    subst hxc
    have hany : s.lists.any (fun l' => l'.board_id == bid && x.list_id == l'.id) = true :=
      List.any_eq_true.2 ⟨l, hl, by simp [hlb, hcl]⟩
    rw [hany] at hxm
    simpa using hxm.2
  · intro r hr
    have := (List.mem_filter.1 hr).2
    simpa using this

/-- Witness for C3: owner `wAlice` deletes board 1 of `wState`; list 3 and
card 5 are no longer found. -/
theorem delete_board_cascades_witness :
    findList (delete_board wState 1 1).2.lists 3 = none ∧
    findCard (delete_board wState 1 1).2.cards 5 = none := by
  have h := delete_board_cascades wState 1 1 wBoard wAlice
    (by decide) (by decide) (by decide) (by decide) (by decide)
  exact ⟨h.2.2.1 wTodo (by decide) (by decide),
    h.2.2.2.1 wCard (by decide) wTodo (by decide) (by decide) (by decide)⟩

/-- Claim C10: `update_list`, `delete_list`, `update_card` and
`delete_card` consult nothing about the actor beyond the session's
existence: for an arbitrary actor id (owner, collaborator or total
stranger — the parameter is never read) and an existing target, each
operation returns its success flash (a forbidden outcome is impossible)
and applies its mutation.  For the card operations the card's parent list
must resolve, which foreign-key integrity guarantees. -/
theorem list_card_mutations_require_only_session
    (s : AppState) (actorId : Nat) :
    (∀ lid newName l, findList s.lists lid = some l →
        update_list s actorId lid newName
          = (.redirectFlash "✅ List updated successfully!",
             { s with lists := s.lists.map (fun x =>
                 if x.id == lid then { x with name := newName } else x) })) ∧
    (∀ lid l, findList s.lists lid = some l →
        delete_list s actorId lid
          = (.redirectFlash "🗑️ List deleted successfully!",
             { s with lists := s.lists.filter (fun x => x.id != lid),
                      cards := s.cards.filter (fun c => c.list_id != lid) })) ∧
    (∀ cid t d card parent, findCard s.cards cid = some card →
        findList s.lists card.list_id = some parent →
        update_card s actorId cid t d
          = (.redirectFlash "✅ Card updated successfully!",
             { s with cards := s.cards.map (fun c =>
                 if c.id == cid then { c with title := t, description := d } else c) })) ∧
    (∀ cid card parent, findCard s.cards cid = some card →
        findList s.lists card.list_id = some parent →
        delete_card s actorId cid
          = (.redirectFlash "🗑️ Card deleted successfully!",
             { s with cards := s.cards.filter (fun c => c.id != cid) })) := by
  refine ⟨?_, ?_, ?_, ?_⟩
  · intro lid newName l hl
    simp only [update_list, hl]
  · intro lid l hl
    simp only [delete_list, hl]
  · intro cid t d card parent hc hp
    simp only [update_card, hc, hp]
  · intro cid card parent hc hp
    simp only [delete_card, hc, hp]

/-- Witness for C10: actor id 7 — no such user even exists — renames list 3
and deletes card 5 successfully. -/
theorem list_card_mutations_require_only_session_witness :
    (update_list wState 7 3 "Doing").1 = .redirectFlash "✅ List updated successfully!" ∧
    (delete_card wState 7 5).1 = .redirectFlash "🗑️ Card deleted successfully!" := by
  have h := list_card_mutations_require_only_session wState 7
  constructor
  · rw [h.1 3 "Doing" wTodo (by decide)]
  · rw [h.2.2.2 5 wCard wTodo (by decide) (by decide)]

/-! ### Preservation of the invariant by every operation -/

/-- `Inv` only looks at users, boards, collaborator rows and the two
corresponding counters, so any operation leaving those intact keeps it. -/
theorem inv_of_same (s s' : AppState) (h : Inv s)
    (hu : s'.users = s.users) (hb : s'.boards = s.boards)
    (hc : s'.collabs = s.collabs) (hnu : s'.nextUserId = s.nextUserId)
    (hnb : s'.nextBoardId = s.nextBoardId) : Inv s' := by
  constructor
  · rw [hu, hnu]; exact h.userFresh
  · rw [hu]; exact h.userNodup
  · rw [hb, hnb]; exact h.boardFresh
  · rw [hb]; exact h.boardNodup
  · rw [hc, hnb]; exact h.collabFresh
  · unfold OwnerNotCollab
    rw [hb, hc]
    exact h.ownerNotCollab

theorem inv_register (hashFn : String → String) (s : AppState)
    (uname pwd : String) (h : Inv s) : Inv (register hashFn s uname pwd).2 := by
  cases hf : findUserByName s.users uname with
  | some u => simpa only [register, hf] using h
  | none =>
    simp only [register, hf]
    refine ⟨?_, ?_, h.boardFresh, h.boardNodup, h.collabFresh, h.ownerNotCollab⟩
    · intro u hu
      rcases List.mem_append.1 hu with h' | h'
      · exact Nat.lt_succ_of_lt (h.userFresh u h')
      · simp only [List.mem_singleton] at h'
        subst h'
        exact Nat.lt_succ_self _
    · exact nodup_append_fresh User.id s.users _ h.userNodup
        (fun x hx => h.userFresh x hx)

theorem inv_create_board (s : AppState) (actorId : Nat) (name : String)
    (h : Inv s) : Inv (create_board s actorId name).2 := by
  refine ⟨h.userFresh, h.userNodup, ?_, ?_, ?_, ?_⟩
  · intro b hb
    rcases List.mem_append.1 hb with h' | h'
    · exact Nat.lt_succ_of_lt (h.boardFresh b h')
    · simp only [List.mem_singleton] at h'
      subst h'
      exact Nat.lt_succ_self _
  · exact nodup_append_fresh Board.id s.boards _ h.boardNodup
      (fun x hx => h.boardFresh x hx)
  · intro r hr
    exact Nat.lt_succ_of_lt (h.collabFresh r hr)
  · intro b hb hmem
    rcases List.mem_append.1 hb with h' | h'
    · exact h.ownerNotCollab b h' hmem
    · simp only [List.mem_singleton] at h'
      subst h'
      exact absurd (h.collabFresh _ hmem) (Nat.lt_irrefl _)

theorem inv_update_board (s : AppState) (actorId bid : Nat) (newName : String)
    (h : Inv s) : Inv (update_board s actorId bid newName).2 := by
  cases hb : findBoard s.boards bid with
  | none => simpa only [update_board, hb] using h
  | some board =>
    cases ho : findUserById s.users board.user_id with
    | none => simpa only [update_board, hb, ho] using h
    | some owner =>
      simp only [update_board, hb, ho]
      by_cases hown : owner.id ≠ actorId
      · rw [if_pos hown]; exact h
      · rw [if_neg hown]
        have hid : ∀ b : Board,
            (if b.id == bid then { b with name := newName } else b).id = b.id := by
          intro b
          by_cases h' : b.id == bid <;> simp [h']
        have huid : ∀ b : Board,
            (if b.id == bid then { b with name := newName } else b).user_id = b.user_id := by
          intro b
          by_cases h' : b.id == bid <;> simp [h']
        refine ⟨h.userFresh, h.userNodup, ?_, ?_, h.collabFresh, ?_⟩
        · intro b hbm
          rcases List.mem_map.1 hbm with ⟨a, ha, rfl⟩
          rw [hid]
          exact h.boardFresh a ha
        · have heq : (s.boards.map fun b =>
              if b.id == bid then { b with name := newName } else b).map Board.id
              = s.boards.map Board.id := by
            rw [List.map_map]
            exact List.map_congr_left (fun a _ => hid a)
          rw [heq]
          exact h.boardNodup
        · intro b hbm hmem
          rcases List.mem_map.1 hbm with ⟨a, ha, rfl⟩
          rw [hid, huid] at hmem
          exact h.ownerNotCollab a ha hmem

theorem inv_delete_board (s : AppState) (actorId bid : Nat)
    (h : Inv s) : Inv (delete_board s actorId bid).2 := by
  cases hb : findBoard s.boards bid with
  | none => simpa only [delete_board, hb] using h
  | some board =>
    cases ho : findUserById s.users board.user_id with
    | none => simpa only [delete_board, hb, ho] using h
    | some owner =>
      simp only [delete_board, hb, ho]
      by_cases hown : owner.id ≠ actorId
      · rw [if_pos hown]; exact h
      · rw [if_neg hown]
        refine ⟨h.userFresh, h.userNodup, ?_, ?_, ?_, ?_⟩
        · intro b hbm
          exact h.boardFresh b (List.mem_of_mem_filter hbm)
        · exact List.Nodup.sublist
            ((s.boards.filter_sublist).map Board.id) h.boardNodup
        · intro r hr
          exact h.collabFresh r (List.mem_of_mem_filter hr)
        · intro b hbm hmem
          exact h.ownerNotCollab b (List.mem_of_mem_filter hbm)
            (List.mem_of_mem_filter hmem)

theorem inv_add_collaborator (s : AppState) (actorId bid : Nat)
    (uname : String) (h : Inv s) : Inv (add_collaborator s actorId bid uname).2 := by
  cases hb : findBoard s.boards bid with
  | none => simpa only [add_collaborator, hb] using h
  | some board =>
    cases ho : findUserById s.users board.user_id with
    | none => simpa only [add_collaborator, hb, ho] using h
    | some owner =>
      cases hu : findUserByName s.users (pyStrip uname) with
      | none =>
        simp only [add_collaborator, hb, ho, hu]
        by_cases hown : owner.id ≠ actorId
        · rw [if_pos hown]; exact h
        · rw [if_neg hown]; exact h
      | some user =>
        simp only [add_collaborator, hb, ho, hu]
        by_cases hown : owner.id ≠ actorId
        · rw [if_pos hown]; exact h
        · rw [if_neg hown]
          by_cases hdup : user = owner ∨ (board.id, user.id) ∈ s.collabs
          · rw [if_pos hdup]; exact h
          · rw [if_neg hdup]
            push_neg at hdup
            obtain ⟨hne, _⟩ := hdup
            have hbmem : board ∈ s.boards := List.mem_of_find?_eq_some hb
            have howner_id : owner.id = board.user_id := by
              simpa using List.find?_some ho
            have howner_mem : owner ∈ s.users := List.mem_of_find?_eq_some ho
            have huser_mem : user ∈ s.users := List.mem_of_find?_eq_some hu
            refine ⟨h.userFresh, h.userNodup, h.boardFresh, h.boardNodup, ?_, ?_⟩
            · intro r hr
              rcases List.mem_append.1 hr with h' | h'
              · exact h.collabFresh r h'
              · simp only [List.mem_singleton] at h'
                subst h'
                exact h.boardFresh board hbmem
            · intro b hbm hmem
              rcases List.mem_append.1 hmem with h' | h'
              · exact h.ownerNotCollab b hbm h'
              · simp only [List.mem_singleton, Prod.mk.injEq] at h'
                obtain ⟨h1, h2⟩ := h'
                have hbb : b = board :=
                  List.inj_on_of_nodup_map h.boardNodup hbm hbmem h1
                subst hbb
                have huo : user = owner :=
                  List.inj_on_of_nodup_map h.userNodup huser_mem howner_mem
                    (by rw [howner_id]; exact h2.symm)
                exact hne huo

theorem inv_add_list (s : AppState) (actorId bid : Nat) (name : String)
    (h : Inv s) : Inv (add_list s actorId bid name).2 :=
  inv_of_same s _ h rfl rfl rfl rfl rfl

theorem inv_update_list (s : AppState) (actorId lid : Nat) (newName : String)
    (h : Inv s) : Inv (update_list s actorId lid newName).2 := by
  cases hl : findList s.lists lid with
  | none => simpa only [update_list, hl] using h
  | some l =>
    simp only [update_list, hl]
    exact inv_of_same s _ h rfl rfl rfl rfl rfl

theorem inv_delete_list (s : AppState) (actorId lid : Nat)
    (h : Inv s) : Inv (delete_list s actorId lid).2 := by
  cases hl : findList s.lists lid with
  | none => simpa only [delete_list, hl] using h
  | some l =>
    simp only [delete_list, hl]
    exact inv_of_same s _ h rfl rfl rfl rfl rfl

theorem inv_add_card (s : AppState) (actorId lid : Nat)
    (title description : String) (h : Inv s) :
    Inv (add_card s actorId lid title description).2 :=
  inv_of_same s _ h rfl rfl rfl rfl rfl

theorem inv_update_card (s : AppState) (actorId cid : Nat)
    (title description : String) (h : Inv s) :
    Inv (update_card s actorId cid title description).2 := by
  cases hc : findCard s.cards cid with
  | none => simpa only [update_card, hc] using h
  | some card =>
    cases hl : findList s.lists card.list_id with
    | none =>
      simp only [update_card, hc, hl]
      exact inv_of_same s _ h rfl rfl rfl rfl rfl
    | some l =>
      simp only [update_card, hc, hl]
      exact inv_of_same s _ h rfl rfl rfl rfl rfl

theorem inv_delete_card (s : AppState) (actorId cid : Nat)
    (h : Inv s) : Inv (delete_card s actorId cid).2 := by
  cases hc : findCard s.cards cid with
  | none => simpa only [delete_card, hc] using h
  | some card =>
    cases hl : findList s.lists card.list_id with
    | none => simpa only [delete_card, hc, hl] using h
    | some l =>
      simp only [delete_card, hc, hl]
      exact inv_of_same s _ h rfl rfl rfl rfl rfl

theorem inv_move_card (s : AppState) (actorId cid lid : Nat) (p : Int)
    (h : Inv s) : Inv (move_card s actorId cid lid p).2 := by
  cases hfc : findCard s.cards cid with
  | none => simpa only [move_card, hfc] using h
  | some card =>
    cases hfl : findList s.lists lid with
    | none => simpa only [move_card, hfc, hfl] using h
    | some nl =>
      cases hfb : findBoard s.boards nl.board_id with
      | none => simpa only [move_card, hfc, hfl, hfb] using h
      | some board =>
        cases ho : findUserById s.users board.user_id with
        | none => simpa only [move_card, hfc, hfl, hfb, ho] using h
        | some owner =>
          simp only [move_card, hfc, hfl, hfb, ho]
          by_cases hauth : owner.id ≠ actorId ∧ (board.id, actorId) ∉ s.collabs
          · rw [if_pos hauth]; exact h
          · rw [if_neg hauth]
            exact inv_of_same s _ h rfl rfl rfl rfl rfl

theorem inv_init : Inv initState := by
  constructor <;> simp [initState, OwnerNotCollab]

theorem inv_step {s s' : AppState} (h : Inv s) (hs : Step s s') : Inv s' := by
  cases hs with
  | ofRegister hashFn s uname pwd => exact inv_register hashFn s uname pwd h
  | ofCreateBoard s actorId name => exact inv_create_board s actorId name h
  | ofUpdateBoard s actorId bid newName => exact inv_update_board s actorId bid newName h
  | ofDeleteBoard s actorId bid => exact inv_delete_board s actorId bid h
  | ofAddCollaborator s actorId bid username => exact inv_add_collaborator s actorId bid username h
  | ofAddList s actorId bid name => exact inv_add_list s actorId bid name h
  | ofUpdateList s actorId lid newName => exact inv_update_list s actorId lid newName h
  | ofDeleteList s actorId lid => exact inv_delete_list s actorId lid h
  | ofAddCard s actorId lid title description => exact inv_add_card s actorId lid title description h
  | ofUpdateCard s actorId cid title description => exact inv_update_card s actorId cid title description h
  | ofDeleteCard s actorId cid => exact inv_delete_card s actorId cid h
  | ofMoveCard s actorId cid lid p => exact inv_move_card s actorId cid lid p h

theorem inv_reachable {s : AppState} (h : Reachable s) : Inv s := by
  induction h with
  | init => exact inv_init
  | step _ hs ih => exact inv_step ih hs

/-- Claim C5: a board's owner is never in its collaborator set.
`add_collaborator` is a no-op with a warning flash when the target is
already the owner or already a collaborator, and on every state reachable
from the empty database by any request sequence the invariant
`OwnerNotCollab` — the owner never appears among the board's collaborator
rows — holds. -/
theorem owner_never_collaborator :
    (∀ (s : AppState) (actorId bid : Nat) (uname : String)
        (board : Board) (owner user : User),
        findBoard s.boards bid = some board →
        findUserById s.users board.user_id = some owner →
        owner.id = actorId →
        findUserByName s.users (pyStrip uname) = some user →
        (user = owner ∨ (board.id, user.id) ∈ s.collabs) →
        add_collaborator s actorId bid uname
          = (.redirectFlash "⚠️ User is already a collaborator or owner.", s)) ∧
    (∀ s : AppState, Reachable s → OwnerNotCollab s) := by
  constructor
  · intro s actorId bid uname board owner user hb ho hown hu hdup
    simp only [add_collaborator, hb, ho, hu]
    rw [if_neg (not_not_intro hown), if_pos hdup]
  · intro s hr
    exact (inv_reachable hr).ownerNotCollab

/-- Witness for C5: along the concrete trace register-alice, create-board,
register-bob, add-bob the invariant holds, and re-adding bob is the
warning no-op. -/
theorem owner_never_collaborator_witness :
    OwnerNotCollab wReach4 ∧
    add_collaborator wReach4 1 1 "bob"
      = (.redirectFlash "⚠️ User is already a collaborator or owner.", wReach4) := by
  constructor
  · exact owner_never_collaborator.2 wReach4
      (Reachable.step
        (Reachable.step
          (Reachable.step
            (Reachable.step Reachable.init
              (Step.ofRegister wHash initState "alice" "pa"))
            (Step.ofCreateBoard wReach1 1 "Sprint"))
          (Step.ofRegister wHash wReach2 "bob" "pb"))
        (Step.ofAddCollaborator wReach3 1 1 "bob"))
  · exact owner_never_collaborator.1 wReach4 1 1 "bob" ⟨1, "Sprint", 1⟩
      ⟨1, "alice", "Hpa"⟩ ⟨2, "bob", "Hpb"⟩ (by decide) (by decide) rfl
      (by decide) (by decide)

end EduBoard
